import Mathlib

/-!
Verification development for the zenOut session player (src/src/App.tsx).

The program is a React component driving a five-phase guided meditation
session.  We shallowly embed the session-clock state machine (the
`useState` fields of `App`, the 1000ms phase-timer interval, and the two
effects keyed on `phaseIndex`), the breathing-prompt derivation
(`BreathPrompt`), the OM-cue scheduler (the effect at lines 202-273),
and the completion audio-stop effect (lines 142-161).

Conventions: milliseconds are `Int` (all values appearing are integers;
JS subtraction can go below zero, so `Int` rather than `Nat`), fractional
quantities (opacity, volume, progress) are `ℚ`.
-/

namespace ZenOut

/-- Source: `type PhaseKey = "p1" | "p2" | "p3" | "p4" | "p5"` (App.tsx line 13). -/
inductive PhaseKey where
  | p1 | p2 | p3 | p4 | p5
deriving DecidableEq, Repr

/-- Source: `type Phase = { key; name; description; illo? }` (App.tsx line 14).
The optional illustration tag. -/
inductive Illo where
  | eyes | ears | neck
deriving DecidableEq, Repr

structure Phase where
  key : PhaseKey
  name : String
  description : String
  illo : Option Illo := none
deriving DecidableEq, Repr

/-- The static `PHASES` array (App.tsx lines 16-23): five fixed entries. -/
def PHASES : List Phase :=
  [ { key := .p1, name := "Resonant Breathing",
      description := "Inhale 4s · Exhale 8s. Follow the circle." },
    { key := .p2, name := "Oms (Humming Exhales)",
      description := "Now hum or \x27om\x27 during each exhale. Feel the vibration in your chest and neck." },
    { key := .p3, name := "Ear Massage",
      description := "Gently rub and stretch your ears.", illo := some .ears },
    { key := .p4, name := "Neck Massage",
      description := "Gently massage along the side of the neck below the ears.", illo := some .neck },
    { key := .p5, name := "Eye Massage",
      description := "Close your eyes and gently massage them with your fingertips.", illo := some .eyes } ]

/-- The `useState` fields of `App` together with the `isTransitioningRef`
mutable ref (App.tsx lines 128-138).  `ambienceOn` is carried along but the
claims do not depend on it. -/
structure SessionState where
  started : Bool
  phaseIndex : Nat
  phaseDurationMs : Int
  remaining : Int
  isTransitioning : Bool
  ambienceOn : Bool
deriving DecidableEq, Repr

/-- The initial `useState` values (App.tsx lines 128-132). -/
def initialState : SessionState :=
  { started := false, phaseIndex := 0, phaseDurationMs := 60000,
    remaining := 60000, isTransitioning := false, ambienceOn := true }

/-- Source: `isComplete = started && phaseIndex === PHASES.length - 1 && remaining === 0`
(App.tsx line 140). -/
def isCompleteB (s : SessionState) : Bool :=
  s.started && s.phaseIndex == PHASES.length - 1 && s.remaining == 0

/-- One firing of the 1000ms interval callback of the phase-timer effect
(App.tsx lines 311-327): the `setRemaining` updater together with the
`setPhaseIndex(p => p + 1)` and `isTransitioningRef.current = true` writes
it performs, i.e. the state as rendered right after the callback, before
any effect keyed on `phaseIndex` has run. -/
def tickRender (s : SessionState) : SessionState :=
  if s.remaining ≤ 1000 ∧ s.isTransitioning = false then
    if s.phaseIndex < PHASES.length - 1 then
      { s with remaining := max 0 (s.remaining - 1000),
               phaseIndex := s.phaseIndex + 1,
               isTransitioning := true }
    else
      { s with remaining := max 0 (s.remaining - 1000) }
  else
    { s with remaining := s.remaining - 1000 }

/-- The effects keyed on `phaseIndex` that React flushes after a render in
which `phaseIndex` changed: `isTransitioningRef.current = false`
(App.tsx lines 176-179) and, when `started`, `setRemaining(phaseDurationMs)`
(App.tsx lines 331-337). -/
def phaseChangeEffects (s : SessionState) : SessionState :=
  { s with isTransitioning := false,
           remaining := if s.started then s.phaseDurationMs else s.remaining }

/-- A full tick of the phase timer: the interval exists only while
`started` (effect guard at line 307); the callback fires, and if the
render changed `phaseIndex` the two `phaseIndex`-keyed effects flush
before the next tick. -/
def tick (s : SessionState) : SessionState :=
  if s.started = false then s
  else if (tickRender s).phaseIndex ≠ s.phaseIndex then
    phaseChangeEffects (tickRender s)
  else tickRender s

/-- The spec-level `start(durationPerPhase)` operation as implemented by
`startWithMinutes` (App.tsx lines 276-285): sets the per-phase duration,
phase index 0, remaining to the duration, started. -/
def start (s : SessionState) (durationPerPhase : Int) : SessionState :=
  { s with phaseDurationMs := durationPerPhase, phaseIndex := 0,
           remaining := durationPerPhase, started := true }

/-- The `startWithMinutes (2|5|10)` handler maps minutes to a per-phase duration of
24000 / 60000 / 120000 ms (App.tsx lines 277-280) and starts the run. -/
def startWithMinutes (s : SessionState) (minutes : Nat) : SessionState :=
  let perPhase : Int := if minutes = 2 then 24000 else if minutes = 5 then 60000 else 120000
  start s perPhase

/-- The `Return to Start` / back button handler (App.tsx lines 491-496 and
583-589): `setStarted(false); setPhaseIndex(0); setRemaining(60000)`;
when `phaseIndex` changed, the `phaseIndex`-keyed ref effect also resets
`isTransitioning` (the remaining-reset effect is vacuous as `started` is
now false). -/
def returnToStart (s : SessionState) : SessionState :=
  let s1 := { s with started := false, phaseIndex := 0, remaining := 60000 }
  if s.phaseIndex ≠ 0 then { s1 with isTransitioning := false } else s1

/-- A sample mid-run state: phase 3 of 5 with 1000ms left on the clock,
used to instantiate theorems at a concrete input. -/
def sampleMidPhase : SessionState :=
  { started := true, phaseIndex := 2, phaseDurationMs := 24000,
    remaining := 1000, isTransitioning := false, ambienceOn := true }

/-- The run invariant: what holds of the session state at every tick
boundary of a run started with per-phase duration `D`. -/
def Inv (D : Int) (s : SessionState) : Prop :=
  s.started = true ∧ s.phaseDurationMs = D ∧ 0 ≤ s.remaining ∧
  s.remaining ≤ D ∧ s.phaseIndex < PHASES.length ∧ s.isTransitioning = false

/-- The `progress` memo (App.tsx lines 350-355): `per = 100 / PHASES.length`,
`within = 1 - remaining / phaseDurationMs`,
result `Math.min(100, phaseIndex * per + within * per)`. -/
def progress (s : SessionState) : ℚ :=
  min 100 ((s.phaseIndex : ℚ) * (100 / (PHASES.length : ℚ)) +
    (1 - (s.remaining : ℚ) / (s.phaseDurationMs : ℚ)) * (100 / (PHASES.length : ℚ)))

/-- An HTML audio element as the claims observe it: playback paused flag,
playback position, volume. -/
structure AudioHandle where
  paused : Bool
  currentTime : Int
  volume : ℚ
deriving DecidableEq, Repr

/-- The session state together with the three audio refs of `App`
(`audioRef` for ambience, `omAudioRef`, `chimeAudioRef`, lines 134-136). -/
structure AppState where
  session : SessionState
  ambience : AudioHandle
  om : AudioHandle
  chime : AudioHandle
deriving DecidableEq, Repr

/-- Source: `audio.pause(); audio.currentTime = 0`, as performed on each handle by
the completion effect (App.tsx lines 146-159). -/
def stopHandle (a : AudioHandle) : AudioHandle :=
  { a with paused := true, currentTime := 0 }

/-- The completion effect (App.tsx lines 142-161): when `isComplete`,
pause all three handles and reset their positions to 0. -/
def completionStopEffect (st : AppState) : AppState :=
  if isCompleteB st.session then
    { st with ambience := stopHandle st.ambience, om := stopHandle st.om,
              chime := stopHandle st.chime }
  else st

/-- One phase-timer tick at the `App` level: the session tick followed by
the completion effect.  The remaining audio effects cannot fire once the
session is complete: the ambience effect (lines 164-173) is guarded by
`!isComplete`, and the chime and OM effects are keyed on `phaseIndex` /
`current.key`, which no longer change. -/
def appTick (st : AppState) : AppState :=
  completionStopEffect { st with session := tick st.session }

/-- Truncation of a rational toward zero, matching how the JS `%` operator
rounds its implicit quotient (the remainder takes the dividend's sign). -/
def ratTrunc (x : ℚ) : Int := if 0 ≤ x then ⌊x⌋ else ⌈x⌉

/-- The JS remainder `x % y`, i.e. `x - y * trunc (x / y)`. -/
def jsMod (x y : ℚ) : ℚ := x - y * (ratTrunc (x / y) : ℚ)

/-- Source: `elapsedSeconds = ((now - cycleTime) / 1000) % 12` (App.tsx line 84):
elapsed seconds since the cycle anchor, modulo the 12-second cycle. -/
def elapsedSeconds (now cycleTime : ℚ) : ℚ :=
  jsMod ((now - cycleTime) / 1000) 12

/-- Source: `isIn = elapsedSeconds < 4` (App.tsx line 85): the first 4 seconds of
each cycle are the inhale sub-state. -/
def isInhale (e : ℚ) : Bool := decide (e < 4)

/-- Source: `text = isIn ? "breathe in..." : "breathe out..."` (App.tsx line 86). -/
def breathText (e : ℚ) : String :=
  if e < 4 then "breathe in..." else "breathe out..."

/-- The opacity computation of `BreathPrompt` (App.tsx lines 90-102):
base 1; during the last second of the inhale (`3 < e < 4`) it becomes
`1 * (1 - (e - 3) / 1)`, during the last second of the exhale (`e > 11`)
`1 * (1 - (e - 11) / 1)`; finally `Math.max(0, Math.min(0.6, opacity))`. -/
def indicatorOpacity (e : ℚ) : ℚ :=
  max 0 (min 0.6
    (if e < 4 then (if 3 < e then 1 * (1 - (e - 3) / 1) else 1)
     else (if 11 < e then 1 * (1 - (e - 11) / 1) else 1)))

/-- Whether the OM effect schedules anything for the current phase: it
returns early unless started, past phase 1 and not complete
(App.tsx line 204). -/
def omScheduled (started : Bool) (key : PhaseKey) (complete : Bool) : Bool :=
  started && !(key == PhaseKey.p1) && !complete

/-- OM cue firing times in ms after the OM effect mounts for a phase:
`setTimeout(playOmForExhale, 4000)` (App.tsx line 263) then
`setInterval(playOm, 12000)` (App.tsx line 259). -/
def omFireTime (n : Nat) : Int := 4000 + 12000 * n

/-- Source: `Math.max(0, initialVolume * (1 - step / fadeSteps))` with
`initialVolume = 0.2`, `fadeSteps = 20` (App.tsx lines 239-244): the hum
volume after `step` firings of the fade interval. -/
def omFadeVolume (step : Nat) : ℚ := max 0 (0.2 * (1 - (step : ℚ) / 20))

/-- The hum playback state `t` ms after one firing of `playOm`
(App.tsx lines 211-253): position 0 and volume 0.2 at the firing; playing
until the `fadeStart = 7000` ms timeout; then one fade-interval step every
`fadeDuration / fadeSteps = 1000 / 20 = 50` ms; when the step count
reaches 20 the interval clears, sets volume 0, pauses and resets the
position to 0. -/
def omPlayback (t : Int) : AudioHandle :=
  if t < 7000 then { paused := false, currentTime := t, volume := 0.2 }
  else if min 20 ((t - 7000) / 50).toNat < 20 then
    { paused := false, currentTime := t,
      volume := omFadeVolume (min 20 ((t - 7000) / 50).toNat) }
  else { paused := true, currentTime := 0, volume := 0 }

/-- The timers and audio handle owned by one OM-effect instance
(one phase): the `startOmCycle` timeout and `omInterval` local to the
effect, and the `_fadeTimeout` / `_fadeInterval` that `playOm` stores on
the audio element itself (App.tsx lines 206-263).  Timeouts are recorded
as their absolute due time in ms from the phase start, `none` when not
pending. -/
structure OmEffectState where
  startOmCycle : Option Int
  omIntervalActive : Bool
  fadeTimeout : Option Int
  fadeIntervalActive : Bool
  audio : AudioHandle
deriving DecidableEq, Repr

/-- A quiescent hum handle with no timers pending, as at the start of a
phase whose predecessor finished cleanly. -/
def omInitial : OmEffectState :=
  { startOmCycle := none, omIntervalActive := false, fadeTimeout := none,
    fadeIntervalActive := false,
    audio := { paused := true, currentTime := 0, volume := 0.2 } }

/-- Mounting the OM effect for a phase 2-5 (App.tsx line 263): schedules
`playOmForExhale` 4000 ms after the phase start. -/
def omEffectMount (a : OmEffectState) : OmEffectState :=
  { a with startOmCycle := some 4000, omIntervalActive := false }

/-- A `playOm` firing at time `t` (App.tsx lines 211-253): clears any fade
timers previously attached to the audio element, restarts playback at
position 0 and volume 0.2, and schedules a fresh fade timeout
`fadeStart = 7000` ms later. -/
def playOm (t : Int) (a : OmEffectState) : OmEffectState :=
  { a with fadeTimeout := some (t + 7000), fadeIntervalActive := false,
           audio := { paused := false, currentTime := 0, volume := 0.2 } }

/-- A `playOmForExhale` firing at time `t` (App.tsx lines 209-260): its
timeout is spent, it plays the OM immediately and starts the 12000 ms
interval. -/
def playOmForExhale (t : Int) (a : OmEffectState) : OmEffectState :=
  { playOm t a with startOmCycle := none, omIntervalActive := true }

/-- The OM effect cleanup (App.tsx lines 265-272), run when the phase is
left or the session ends: clears the `startOmCycle` timeout and the
`omInterval`, pauses the hum and resets its position.  It does not touch
the `_fadeTimeout` / `_fadeInterval` stored on the audio element. -/
def omEffectCleanup (a : OmEffectState) : OmEffectState :=
  { a with startOmCycle := none, omIntervalActive := false,
           audio := { a.audio with paused := true, currentTime := 0 } }

/-- A concrete completed app state used to instantiate theorems. -/
def completedApp : AppState :=
  { session := { started := true, phaseIndex := 4, phaseDurationMs := 24000,
                 remaining := 0, isTransitioning := false, ambienceOn := true },
    ambience := { paused := false, currentTime := 1234, volume := 1 },
    om := { paused := false, currentTime := 500, volume := 0.2 },
    chime := { paused := false, currentTime := 3, volume := 0.1 } }

/-- A concrete state at the end of the fourth phase (one tick away from
entering the last phase), used to instantiate theorems. -/
def sampleEndOfPhase4 : SessionState :=
  { started := true, phaseIndex := 3, phaseDurationMs := 24000,
    remaining := 1000, isTransitioning := false, ambienceOn := true }

theorem PHASES_length : PHASES.length = 5 := rfl

theorem inv_start {D : Int} (s : SessionState) (hD : 0 < D)
    (htr : s.isTransitioning = false) : Inv D (start s D) := by
  refine ⟨rfl, rfl, le_of_lt hD, le_refl _, ?_, htr⟩
  simp [start, PHASES_length]

theorem tick_notStarted {s : SessionState} (h : s.started = false) : tick s = s := by
  unfold tick
  rw [if_pos h]

theorem tickRender_transition {s : SessionState}
    (htr : s.isTransitioning = false) (hle : s.remaining ≤ 1000)
    (hlt : s.phaseIndex < PHASES.length - 1) :
    tickRender s = { s with remaining := max 0 (s.remaining - 1000),
                            phaseIndex := s.phaseIndex + 1,
                            isTransitioning := true } := by
  unfold tickRender
  rw [if_pos ⟨hle, htr⟩, if_pos hlt]

theorem tickRender_lastPhase {s : SessionState}
    (htr : s.isTransitioning = false) (hle : s.remaining ≤ 1000)
    (hnlt : ¬ s.phaseIndex < PHASES.length - 1) :
    tickRender s = { s with remaining := max 0 (s.remaining - 1000) } := by
  unfold tickRender
  rw [if_pos ⟨hle, htr⟩, if_neg hnlt]

theorem tickRender_decrement {s : SessionState}
    (hc : ¬ (s.remaining ≤ 1000 ∧ s.isTransitioning = false)) :
    tickRender s = { s with remaining := s.remaining - 1000 } := by
  unfold tickRender
  rw [if_neg hc]

theorem tick_transition {s : SessionState} (hst : s.started = true)
    (htr : s.isTransitioning = false) (hle : s.remaining ≤ 1000)
    (hlt : s.phaseIndex < PHASES.length - 1) :
    tick s = { s with phaseIndex := s.phaseIndex + 1,
                      remaining := s.phaseDurationMs,
                      isTransitioning := false } := by
  unfold tick
  rw [if_neg (by rw [hst]; simp), tickRender_transition htr hle hlt,
      if_pos (by simp)]
  unfold phaseChangeEffects
  simp [hst]

theorem tick_lastPhase {s : SessionState} (hst : s.started = true)
    (htr : s.isTransitioning = false) (hle : s.remaining ≤ 1000)
    (hnlt : ¬ s.phaseIndex < PHASES.length - 1) :
    tick s = { s with remaining := max 0 (s.remaining - 1000) } := by
  unfold tick
  rw [if_neg (by rw [hst]; simp), tickRender_lastPhase htr hle hnlt,
      if_neg (by simp)]

theorem tick_decrement {s : SessionState} (hst : s.started = true)
    (hc : ¬ (s.remaining ≤ 1000 ∧ s.isTransitioning = false)) :
    tick s = { s with remaining := s.remaining - 1000 } := by
  unfold tick
  rw [if_neg (by rw [hst]; simp), tickRender_decrement hc,
      if_neg (by simp)]

theorem inv_tick {D : Int} {s : SessionState} (h : Inv D s) : Inv D (tick s) := by
  obtain ⟨hst, hdur, h0, hD, hidx, htr⟩ := h
  by_cases hle : s.remaining ≤ 1000
  · by_cases hlt : s.phaseIndex < PHASES.length - 1
    · rw [tick_transition hst htr hle hlt]
      refine ⟨hst, hdur, ?_, ?_, ?_, rfl⟩
      · show (0 : Int) ≤ s.phaseDurationMs
        rw [hdur]; exact le_trans h0 hD
      · show s.phaseDurationMs ≤ D
        rw [hdur]
      · show s.phaseIndex + 1 < PHASES.length
        rw [PHASES_length]; rw [PHASES_length] at hlt; omega
    · rw [tick_lastPhase hst htr hle hlt]
      refine ⟨hst, hdur, le_max_left _ _, ?_, hidx, htr⟩
      show max 0 (s.remaining - 1000) ≤ D
      have : (0 : Int) ≤ D := le_trans h0 hD
      omega
  · rw [tick_decrement hst (by simp [hle])]
    refine ⟨hst, hdur, ?_, ?_, hidx, htr⟩
    · show (0 : Int) ≤ s.remaining - 1000
      omega
    · show s.remaining - 1000 ≤ D
      omega

theorem inv_iterate {D : Int} {s : SessionState} (h : Inv D s) (k : Nat) :
    Inv D (tick^[k] s) := by
  induction k with
  | zero => simpa using h
  | succ n ih =>
      rw [Function.iterate_succ_apply']
      exact inv_tick ih

theorem inv_start_iterate {D : Int} (s : SessionState) (hD : 0 < D)
    (htr : s.isTransitioning = false) (k : Nat) :
    Inv D (tick^[k] (start s D)) :=
  inv_iterate (inv_start s hD htr) k

theorem tick_phaseIndex_mono (s : SessionState) :
    s.phaseIndex ≤ (tick s).phaseIndex := by
  unfold tick tickRender phaseChangeEffects
  repeat' split
  all_goals simp

theorem tick_phaseIndex_le_succ (s : SessionState) :
    (tick s).phaseIndex ≤ s.phaseIndex + 1 := by
  unfold tick tickRender phaseChangeEffects
  repeat' split
  all_goals simp

theorem tick_phaseIndex_lt (s : SessionState)
    (h : s.phaseIndex < PHASES.length) :
    (tick s).phaseIndex < PHASES.length := by
  unfold tick tickRender phaseChangeEffects
  repeat' split
  all_goals simp_all
  all_goals omega

/-- While the run is still in phase 0, each tick subtracts exactly 1000 and
the result stays strictly positive (otherwise the tick would have advanced
the phase). -/
theorem remaining_while_phase0 {D : Int} (s : SessionState) (hD : 0 < D)
    (htr : s.isTransitioning = false) (k : Nat)
    (h0 : (tick^[k] (start s D)).phaseIndex = 0) :
    (tick^[k] (start s D)).remaining = D - k * 1000 ∧ 0 < D - k * 1000 := by
  induction k with
  | zero => simpa [start] using hD
  | succ n ih =>
      rw [Function.iterate_succ_apply'] at h0 ⊢
      set r := tick^[n] (start s D) with hr
      have hinv : Inv D r := inv_start_iterate s hD htr n
      obtain ⟨hst, hdur, hr0, hrD, hidx, hrtr⟩ := hinv
      have hrphase : r.phaseIndex = 0 := by
        have := tick_phaseIndex_mono r
        omega
      obtain ⟨hrem, hpos⟩ := ih hrphase
      by_cases hle : r.remaining ≤ 1000
      · exfalso
        have hlt : r.phaseIndex < PHASES.length - 1 := by
          rw [hrphase, PHASES_length]; omega
        rw [tick_transition hst hrtr hle hlt] at h0
        simp [hrphase] at h0
      · rw [tick_decrement hst (by simp [hle])]
        have : (tick r).started = true := (inv_tick ⟨hst, hdur, hr0, hrD, hidx, hrtr⟩).1
        constructor
        · show r.remaining - 1000 = D - (n + 1 : Nat) * 1000
          rw [hrem]; push_cast; ring
        · push_cast
          omega

/-- C1: Session Clock tick arithmetic.  For every `phaseDurationMs > 0`,
starting a run sets `remaining` to `phaseDurationMs`, and after `k` ticks
of the 1000ms phase timer during which no phase transition occurred (the
phase index is still 0), `remaining = max 0 (phaseDurationMs - k*1000)`. -/
theorem C1_session_clock_tick_arithmetic (s : SessionState) (D : Int) (k : Nat)
    (hD : 0 < D) (htr : s.isTransitioning = false)
    (hnotrans : (tick^[k] (start s D)).phaseIndex = 0) :
    (start s D).remaining = D ∧
    (tick^[k] (start s D)).remaining = max 0 (D - k * 1000) := by
  obtain ⟨hrem, hpos⟩ := remaining_while_phase0 s hD htr k hnotrans
  refine ⟨rfl, ?_⟩
  rw [hrem, max_eq_right (le_of_lt hpos)]

theorem C1_session_clock_tick_arithmetic_witness :
    (start initialState 24000).remaining = 24000 ∧
    (tick^[3] (start initialState 24000)).remaining =
      max 0 (24000 - (3 : Nat) * 1000) :=
  C1_session_clock_tick_arithmetic initialState 24000 3 (by decide) rfl (by decide)

/-- C2: Phase advancement.  Under `tick` the phase index never decreases
and increases by at most 1; it stays below `PHASES.length`; whenever
`remaining` would reach 0 (is ≤ the 1000ms tick size) and a next phase
exists, the index advances by exactly 1 and `remaining` is reset to the
per-phase duration; and the `isTransitioningRef` guard ensures a second
overlapping timer callback before the effects flush performs no second
advance. -/
theorem C2_phase_advancement (s : SessionState) :
    s.phaseIndex ≤ (tick s).phaseIndex ∧
    (tick s).phaseIndex ≤ s.phaseIndex + 1 ∧
    (s.phaseIndex < PHASES.length → (tick s).phaseIndex < PHASES.length) ∧
    (s.started = true → s.isTransitioning = false → s.remaining ≤ 1000 →
      s.phaseIndex < PHASES.length - 1 →
      (tick s).phaseIndex = s.phaseIndex + 1 ∧
      (tick s).remaining = s.phaseDurationMs) ∧
    (s.isTransitioning = false → s.remaining ≤ 1000 →
      s.phaseIndex < PHASES.length - 1 →
      (tickRender s).isTransitioning = true ∧
      (tickRender (tickRender s)).phaseIndex = (tickRender s).phaseIndex) := by
  refine ⟨tick_phaseIndex_mono s, tick_phaseIndex_le_succ s, tick_phaseIndex_lt s,
    ?_, ?_⟩
  · intro hst htr hle hlt
    rw [tick_transition hst htr hle hlt]
    exact ⟨rfl, rfl⟩
  · intro htr hle hlt
    rw [tickRender_transition htr hle hlt]
    refine ⟨rfl, ?_⟩
    rw [tickRender_decrement (by simp)]

theorem C2_phase_advancement_witness :
    ((tick sampleMidPhase).phaseIndex = 3 ∧ (tick sampleMidPhase).remaining = 24000) ∧
    ((tickRender sampleMidPhase).isTransitioning = true ∧
      (tickRender (tickRender sampleMidPhase)).phaseIndex = (tickRender sampleMidPhase).phaseIndex) :=
  ⟨(C2_phase_advancement sampleMidPhase).2.2.2.1 rfl rfl (by decide) (by decide),
   (C2_phase_advancement sampleMidPhase).2.2.2.2 rfl (by decide) (by decide)⟩

/-- C3: State invariant.  In every state reachable during a run
(`k` ticks after `start` with duration `D > 0`),
`0 ≤ remaining ≤ phaseDurationMs` and `phaseIndex < PHASES.length = 5`. -/
theorem C3_state_invariant (s : SessionState) (D : Int) (k : Nat)
    (hD : 0 < D) (htr : s.isTransitioning = false) :
    0 ≤ (tick^[k] (start s D)).remaining ∧
    (tick^[k] (start s D)).remaining ≤ (tick^[k] (start s D)).phaseDurationMs ∧
    (tick^[k] (start s D)).phaseIndex < PHASES.length ∧
    PHASES.length = 5 := by
  obtain ⟨hst, hdur, h0, hDle, hidx, _⟩ := inv_start_iterate s hD htr k
  exact ⟨h0, by rw [hdur]; exact hDle, hidx, PHASES_length⟩

theorem progress_formula (s : SessionState) :
    progress s = min 100 ((s.phaseIndex : ℚ) * 20 +
      (1 - (s.remaining : ℚ) / (s.phaseDurationMs : ℚ)) * 20) := by
  unfold progress
  rw [PHASES_length]
  norm_num

theorem progress_bounds {s : SessionState} {D : Int} (hD : 0 < D)
    (hdur : s.phaseDurationMs = D) (h0 : 0 ≤ s.remaining)
    (hDle : s.remaining ≤ D) (hidx : s.phaseIndex < PHASES.length) :
    progress s = (s.phaseIndex : ℚ) * 20 +
      (1 - (s.remaining : ℚ) / (D : ℚ)) * 20 ∧
    0 ≤ progress s ∧ progress s ≤ 100 := by
  have hDQ : (0 : ℚ) < (D : ℚ) := by exact_mod_cast hD
  have hq0 : 0 ≤ (s.remaining : ℚ) / (D : ℚ) :=
    div_nonneg (by exact_mod_cast h0) hDQ.le
  have hq1 : (s.remaining : ℚ) / (D : ℚ) ≤ 1 :=
    (div_le_one hDQ).2 (by exact_mod_cast hDle)
  have hx : (s.phaseIndex : ℚ) ≤ 4 := by
    have hx4 : s.phaseIndex ≤ 4 := by rw [PHASES_length] at hidx; omega
    exact_mod_cast hx4
  have hx0 : (0 : ℚ) ≤ (s.phaseIndex : ℚ) := Nat.cast_nonneg _
  have harg : (s.phaseIndex : ℚ) * 20 +
      (1 - (s.remaining : ℚ) / (D : ℚ)) * 20 ≤ 100 := by nlinarith
  have harg0 : 0 ≤ (s.phaseIndex : ℚ) * 20 +
      (1 - (s.remaining : ℚ) / (D : ℚ)) * 20 := by nlinarith
  rw [progress_formula, hdur]
  exact ⟨min_eq_right harg, le_min (by norm_num) harg0, min_le_left _ _⟩

/-- C4: during a run `progress` equals the completed phases' share
`phaseIndex * 100/5` plus the fractional progress within the current
phase, lies in [0, 100], is non-decreasing from one tick to the next, and
equals exactly 100 iff the session is complete (last phase and
`remaining = 0`). -/
theorem C4_progress_properties (s : SessionState) (D : Int)
    (hD : 0 < D) (hinv : Inv D s) :
    progress s = (s.phaseIndex : ℚ) * (100 / 5) +
      (1 - (s.remaining : ℚ) / (D : ℚ)) * (100 / 5) ∧
    0 ≤ progress s ∧ progress s ≤ 100 ∧
    progress s ≤ progress (tick s) ∧
    (progress s = 100 ↔ isCompleteB s = true) := by
  obtain ⟨hst, hdur, h0, hDle, hidx, htr⟩ := hinv
  have hDQ : (0 : ℚ) < (D : ℚ) := by exact_mod_cast hD
  obtain ⟨hpf, hp0, hp100⟩ := progress_bounds hD hdur h0 hDle hidx
  have hq0 : 0 ≤ (s.remaining : ℚ) / (D : ℚ) :=
    div_nonneg (by exact_mod_cast h0) hDQ.le
  have hq1 : (s.remaining : ℚ) / (D : ℚ) ≤ 1 :=
    (div_le_one hDQ).2 (by exact_mod_cast hDle)
  refine ⟨by rw [hpf]; norm_num, hp0, hp100, ?_, ?_⟩
  · -- monotone under tick
    obtain ⟨hst2, hdur2, h02, hDle2, hidx2, htrx⟩ :=
      inv_tick (D := D) ⟨hst, hdur, h0, hDle, hidx, htr⟩
    obtain ⟨hpf2, hp02, hp1002⟩ := progress_bounds hD hdur2 h02 hDle2 hidx2
    rw [hpf, hpf2]
    by_cases hle : s.remaining ≤ 1000
    · by_cases hlt : s.phaseIndex < PHASES.length - 1
      · have ht := tick_transition hst htr hle hlt
        have hti : (tick s).phaseIndex = s.phaseIndex + 1 := by rw [ht]
        have htrem : (tick s).remaining = s.phaseDurationMs := by rw [ht]
        rw [hti, htrem, hdur, div_self hDQ.ne']
        push_cast
        nlinarith
      · have ht := tick_lastPhase hst htr hle hlt
        have hti : (tick s).phaseIndex = s.phaseIndex := by rw [ht]
        have htrem : (tick s).remaining = 0 := by
          rw [ht]
          show max 0 (s.remaining - 1000) = 0
          omega
        rw [hti, htrem]
        push_cast
        rw [zero_div]
        nlinarith
    · have ht := tick_decrement hst (by simp [hle])
      have hti : (tick s).phaseIndex = s.phaseIndex := by rw [ht]
      have htrem : (tick s).remaining = s.remaining - 1000 := by rw [ht]
      rw [hti, htrem]
      have hdiv : ((s.remaining - 1000 : Int) : ℚ) / (D : ℚ) ≤
          (s.remaining : ℚ) / (D : ℚ) :=
        (div_le_div_iff_of_pos_right hDQ).2 (by push_cast; linarith)
      push_cast
      push_cast at hdiv
      nlinarith
  · -- progress = 100 ↔ complete
    constructor
    · intro h100
      rw [hpf] at h100
      have hidx4 : s.phaseIndex = 4 := by
        by_contra hne
        have hle3 : s.phaseIndex ≤ 3 := by rw [PHASES_length] at hidx; omega
        have hc : (s.phaseIndex : ℚ) ≤ 3 := by exact_mod_cast hle3
        nlinarith
      have hrq : (s.remaining : ℚ) / (D : ℚ) = 0 := by
        rw [hidx4] at h100
        push_cast at h100
        nlinarith
      have hr0 : (s.remaining : ℚ) = 0 := by
        rcases div_eq_zero_iff.1 hrq with h | h
        · exact h
        · exact absurd h hDQ.ne'
      have hr : s.remaining = 0 := by exact_mod_cast hr0
      simp [isCompleteB, hst, PHASES_length, hidx4, hr]
    · intro hC
      simp [isCompleteB, hst, PHASES_length] at hC
      obtain ⟨hidx4, hr⟩ := hC
      rw [hpf, hidx4, hr]
      push_cast
      norm_num

theorem C4_progress_properties_witness :
    progress sampleMidPhase = (sampleMidPhase.phaseIndex : ℚ) * (100 / 5) +
      (1 - (sampleMidPhase.remaining : ℚ) / ((24000 : Int) : ℚ)) * (100 / 5) ∧
    0 ≤ progress sampleMidPhase ∧ progress sampleMidPhase ≤ 100 ∧
    progress sampleMidPhase ≤ progress (tick sampleMidPhase) ∧
    (progress sampleMidPhase = 100 ↔ isCompleteB sampleMidPhase = true) :=
  C4_progress_properties sampleMidPhase 24000 (by decide)
    ⟨rfl, rfl, by decide, by decide, by decide, rfl⟩

theorem C3_state_invariant_witness :
    0 ≤ (tick^[30] (start initialState 24000)).remaining ∧
    (tick^[30] (start initialState 24000)).remaining ≤
      (tick^[30] (start initialState 24000)).phaseDurationMs ∧
    (tick^[30] (start initialState 24000)).phaseIndex < PHASES.length ∧
    PHASES.length = 5 :=
  C3_state_invariant initialState 24000 30 (by decide) rfl

theorem tick_fixed_of_complete {s : SessionState}
    (hst : s.started = true) (htr : s.isTransitioning = false)
    (hidx : s.phaseIndex = PHASES.length - 1) (hrem : s.remaining = 0) :
    tick s = s := by
  have h := tick_lastPhase hst htr (by rw [hrem]; norm_num) (by omega)
  rw [h, hrem]
  cases s
  simp_all

/-- C5: terminal condition.  Once the session is complete (last phase and
`remaining = 0`), a further phase-timer tick leaves the session state
unchanged, the completion effect has all three audio handles paused with
position 0, and a further app tick changes nothing at all. -/
theorem C5_terminal_condition (st : AppState)
    (hc : isCompleteB st.session = true)
    (htr : st.session.isTransitioning = false) :
    (appTick st).session = st.session ∧
    (appTick st).ambience.paused = true ∧ (appTick st).ambience.currentTime = 0 ∧
    (appTick st).om.paused = true ∧ (appTick st).om.currentTime = 0 ∧
    (appTick st).chime.paused = true ∧ (appTick st).chime.currentTime = 0 ∧
    appTick (appTick st) = appTick st := by
  have hc' := hc
  simp only [isCompleteB, PHASES_length, Bool.and_eq_true, beq_iff_eq] at hc'
  obtain ⟨⟨hst, hidx⟩, hrem⟩ := hc'
  have hfix : tick st.session = st.session :=
    tick_fixed_of_complete hst htr (by rw [hidx]; rfl) hrem
  have hsess : { st with session := tick st.session } = st := by
    rw [hfix]
  have happ : appTick st = completionStopEffect st := by
    unfold appTick
    rw [hsess]
  have hstop : completionStopEffect st =
      { st with ambience := stopHandle st.ambience, om := stopHandle st.om,
                chime := stopHandle st.chime } := by
    unfold completionStopEffect
    rw [if_pos hc]
  refine ⟨?_, ?_, ?_, ?_, ?_, ?_, ?_, ?_⟩
  · rw [happ, hstop]
  · rw [happ, hstop]; rfl
  · rw [happ, hstop]; rfl
  · rw [happ, hstop]; rfl
  · rw [happ, hstop]; rfl
  · rw [happ, hstop]; rfl
  · rw [happ, hstop]; rfl
  · rw [happ, hstop]
    simp [appTick, completionStopEffect, hfix, hc, stopHandle]

theorem C5_terminal_condition_witness :
    (appTick completedApp).session = completedApp.session ∧
    (appTick completedApp).ambience.paused = true ∧
    (appTick completedApp).ambience.currentTime = 0 ∧
    (appTick completedApp).om.paused = true ∧
    (appTick completedApp).om.currentTime = 0 ∧
    (appTick completedApp).chime.paused = true ∧
    (appTick completedApp).chime.currentTime = 0 ∧
    appTick (appTick completedApp) = appTick completedApp :=
  C5_terminal_condition completedApp (by decide) rfl

/-- C10: on every phase transition the render produced by the timer
callback (before the `phaseIndex`-keyed effects flush) already shows the
advanced phase index while `remaining` is 0, not yet reset; when the
transition enters the last phase this intermediate state satisfies the
completion predicate, while the state after the effects flush does not
(its `remaining` is back at the full per-phase duration). -/
theorem C10_transient_completion (s : SessionState) (D : Int)
    (hD : 0 < D) (hinv : Inv D s) (hle : s.remaining ≤ 1000) :
    (s.phaseIndex < PHASES.length - 1 →
      (tickRender s).phaseIndex = s.phaseIndex + 1 ∧
      (tickRender s).remaining = 0 ∧
      (tick s).remaining = D) ∧
    (s.phaseIndex = PHASES.length - 2 →
      isCompleteB (tickRender s) = true ∧
      isCompleteB (tick s) = false) := by
  obtain ⟨hst, hdur, h0, hDle, hidx, htr⟩ := hinv
  constructor
  · intro hlt
    have hr := tickRender_transition htr hle hlt
    have ht := tick_transition hst htr hle hlt
    refine ⟨by rw [hr], ?_, by rw [ht]; exact hdur⟩
    rw [hr]
    show max 0 (s.remaining - 1000) = 0
    omega
  · intro hidx3
    have hlt : s.phaseIndex < PHASES.length - 1 := by
      rw [PHASES_length] at hidx3 ⊢; omega
    have hr := tickRender_transition htr hle hlt
    have ht := tick_transition hst htr hle hlt
    constructor
    · rw [hr]
      simp only [isCompleteB, PHASES_length, Bool.and_eq_true, beq_iff_eq]
      refine ⟨⟨hst, ?_⟩, ?_⟩
      · show s.phaseIndex + 1 = 5 - 1
        rw [PHASES_length] at hidx3; omega
      · show max 0 (s.remaining - 1000) = 0
        omega
    · rw [ht]
      have hne : s.phaseDurationMs ≠ 0 := by omega
      simp [isCompleteB, hne]

theorem C10_transient_completion_witness :
    ((tickRender sampleEndOfPhase4).phaseIndex = sampleEndOfPhase4.phaseIndex + 1 ∧
      (tickRender sampleEndOfPhase4).remaining = 0 ∧
      (tick sampleEndOfPhase4).remaining = 24000) ∧
    (isCompleteB (tickRender sampleEndOfPhase4) = true ∧
      isCompleteB (tick sampleEndOfPhase4) = false) :=
  ⟨(C10_transient_completion sampleEndOfPhase4 24000 (by decide)
      ⟨rfl, rfl, by decide, by decide, by decide, rfl⟩ (by decide)).1 (by decide),
   (C10_transient_completion sampleEndOfPhase4 24000 (by decide)
      ⟨rfl, rfl, by decide, by decide, by decide, rfl⟩ (by decide)).2 rfl⟩

theorem jsMod_eval_small {x : ℚ} (h0 : 0 ≤ x) (h12 : x < 12) :
    jsMod x 12 = x := by
  unfold jsMod ratTrunc
  have hq0 : 0 ≤ x / 12 := by positivity
  have hq1 : x / 12 < 1 := by
    rw [div_lt_one (by norm_num)]
    exact h12
  rw [if_pos hq0, Int.floor_eq_zero_iff.2 ⟨hq0, hq1⟩]
  push_cast
  ring

/-- C6: breathing sub-state.  With `e` the elapsed seconds since the cycle
anchor modulo the 12-second cycle, `e < 4` yields the inhale sub-state
with indicator text "breathe in...", `e ≥ 4` the exhale sub-state with
text "breathe out..."; in particular 3999 ms after the anchor the
sub-state is inhale and 5000 ms after it is exhale. -/
theorem C6_breathing_substate (now t0 : ℚ) :
    (elapsedSeconds now t0 < 4 → isInhale (elapsedSeconds now t0) = true ∧
      breathText (elapsedSeconds now t0) = "breathe in...") ∧
    (4 ≤ elapsedSeconds now t0 → isInhale (elapsedSeconds now t0) = false ∧
      breathText (elapsedSeconds now t0) = "breathe out...") ∧
    elapsedSeconds (t0 + 3999) t0 < 4 ∧
    breathText (elapsedSeconds (t0 + 3999) t0) = "breathe in..." ∧
    4 ≤ elapsedSeconds (t0 + 5000) t0 ∧
    breathText (elapsedSeconds (t0 + 5000) t0) = "breathe out..." := by
  have h3999 : elapsedSeconds (t0 + 3999) t0 = 3999 / 1000 := by
    unfold elapsedSeconds
    rw [show (t0 + 3999 - t0) / 1000 = (3999 / 1000 : ℚ) by ring]
    exact jsMod_eval_small (by norm_num) (by norm_num)
  have h5000 : elapsedSeconds (t0 + 5000) t0 = 5 := by
    unfold elapsedSeconds
    rw [show (t0 + 5000 - t0) / 1000 = (5 : ℚ) by ring]
    exact jsMod_eval_small (by norm_num) (by norm_num)
  refine ⟨?_, ?_, ?_, ?_, ?_, ?_⟩
  · intro h
    exact ⟨by simp [isInhale, h], by unfold breathText; rw [if_pos h]⟩
  · intro h
    refine ⟨by simp [isInhale]; linarith, ?_⟩
    unfold breathText
    rw [if_neg (not_lt.2 h)]
  · rw [h3999]; norm_num
  · rw [h3999]; unfold breathText; rw [if_pos (by norm_num)]
  · rw [h5000]; norm_num
  · rw [h5000]; unfold breathText; rw [if_neg (by norm_num)]

theorem C6_breathing_substate_witness :
    (isInhale (elapsedSeconds 1002000 1000000) = true ∧
      breathText (elapsedSeconds 1002000 1000000) = "breathe in...") ∧
    (isInhale (elapsedSeconds 1007000 1000000) = false ∧
      breathText (elapsedSeconds 1007000 1000000) = "breathe out...") :=
  ⟨(C6_breathing_substate 1002000 1000000).1
      (by
        have h : elapsedSeconds 1002000 1000000 = 2 := by
          unfold elapsedSeconds
          rw [show ((1002000 : ℚ) - 1000000) / 1000 = 2 by norm_num]
          exact jsMod_eval_small (by norm_num) (by norm_num)
        rw [h]; norm_num),
   (C6_breathing_substate 1007000 1000000).2.1
      (by
        have h : elapsedSeconds 1007000 1000000 = 7 := by
          unfold elapsedSeconds
          rw [show ((1007000 : ℚ) - 1000000) / 1000 = 7 by norm_num]
          exact jsMod_eval_small (by norm_num) (by norm_num)
        rw [h]; norm_num)⟩

/-- C7 as stated is false: at `e = 3.5` units into the inhale the code
computes the fade from a base of 1, `1 * (1 - (3.5 - 3) / 1) = 0.5`, and
the clamp `max(0, min(0.6, 0.5))` leaves 0.5 — not
`0.6 * (1 - 0.5) = 0.3` as the claim asserts. -/
theorem C7_opacity_counterexample :
    indicatorOpacity (7 / 2) = 1 / 2 ∧ indicatorOpacity (7 / 2) ≠ 3 / 10 := by
  constructor <;> norm_num [indicatorOpacity, min_def, max_def]

/-- C7 amended: the fade envelope is computed from a base opacity of 1
(not from the 0.6 cap) and clamped to `[0, 0.6]` afterwards: outside the
last 1 unit of each sub-state the indicator shows the cap 0.6; within the
last unit it shows `max 0 (min 0.6 (1 - t))` where `t` is the progress
into that unit (so it stays at 0.6 for the first 0.4 of the unit, then
falls linearly to 0); at `e = 3.5` the opacity is 0.5. -/
theorem C7_fade_envelope (e : ℚ) :
    (0 ≤ e → e ≤ 3 → indicatorOpacity e = 0.6) ∧
    (3 < e → e < 4 → indicatorOpacity e = max 0 (min 0.6 (4 - e))) ∧
    (4 ≤ e → e ≤ 11 → indicatorOpacity e = 0.6) ∧
    (11 < e → indicatorOpacity e = max 0 (min 0.6 (12 - e))) ∧
    indicatorOpacity (7 / 2) = 1 / 2 := by
  refine ⟨?_, ?_, ?_, ?_, by norm_num [indicatorOpacity, min_def, max_def]⟩
  · intro h0 h3
    unfold indicatorOpacity
    rw [if_pos (by linarith : e < 4), if_neg (by linarith : ¬ (3 : ℚ) < e)]
    norm_num [min_def, max_def]
  · intro h3 h4
    unfold indicatorOpacity
    rw [if_pos h4, if_pos h3]
    rw [show 1 * (1 - (e - 3) / 1) = 4 - e by ring]
  · intro h4 h11
    unfold indicatorOpacity
    rw [if_neg (by linarith : ¬ e < 4), if_neg (by linarith : ¬ (11 : ℚ) < e)]
    norm_num [min_def, max_def]
  · intro h11
    unfold indicatorOpacity
    rw [if_neg (by linarith : ¬ e < 4), if_pos h11]
    rw [show 1 * (1 - (e - 11) / 1) = 12 - e by ring]

theorem C7_fade_envelope_witness :
    indicatorOpacity 2 = 0.6 ∧
    indicatorOpacity (7 / 2) = max 0 (min 0.6 (4 - 7 / 2)) :=
  ⟨(C7_fade_envelope 2).1 (by norm_num) (by norm_num),
   (C7_fade_envelope (7 / 2)).2.1 (by norm_num) (by norm_num)⟩

/-- C8: hum cue schedule.  The OM effect schedules nothing for phase 1 and
schedules for every later phase; the first firing is exactly 4000 ms
(4 units) after the effect mounts and subsequent firings repeat every
12000 ms; each firing starts playback at position 0 and volume 0.2 and
keeps playing at 0.2 until the 7000 ms fade start; the fade proceeds in 20
linear 50 ms steps (volume `0.2 * (1 - step/20)`) reaching 0, after which
(8000 ms onward) playback is stopped with the position reset to 0. -/
theorem C8_hum_cue_schedule :
    omScheduled true PhaseKey.p1 false = false ∧
    (∀ k : PhaseKey, k ≠ PhaseKey.p1 → omScheduled true k false = true) ∧
    omFireTime 0 = 4000 ∧
    (∀ n : Nat, omFireTime (n + 1) = omFireTime n + 12000) ∧
    omPlayback 0 = { paused := false, currentTime := 0, volume := 0.2 } ∧
    (∀ t : Int, 0 ≤ t → t < 7000 →
      (omPlayback t).paused = false ∧ (omPlayback t).volume = 0.2) ∧
    (∀ step : Nat, step ≤ 20 →
      omFadeVolume step = 0.2 * (1 - (step : ℚ) / 20)) ∧
    (∀ k : Nat, k < 20 →
      (omPlayback (7000 + 50 * k)).volume = omFadeVolume k ∧
      (omPlayback (7000 + 50 * k)).paused = false) ∧
    omFadeVolume 20 = 0 ∧
    (∀ t : Int, 8000 ≤ t →
      omPlayback t = { paused := true, currentTime := 0, volume := 0 }) := by
  refine ⟨rfl, ?_, rfl, ?_, ?_, ?_, ?_, ?_, ?_, ?_⟩
  · intro k hk
    cases k
    · exact absurd rfl hk
    all_goals rfl
  · intro n
    unfold omFireTime
    push_cast
    ring
  · unfold omPlayback
    rw [if_pos (by norm_num)]
  · intro t h0 h7
    unfold omPlayback
    rw [if_pos h7]
    exact ⟨rfl, rfl⟩
  · intro step h
    unfold omFadeVolume
    have hs : (step : ℚ) ≤ 20 := by exact_mod_cast h
    apply max_eq_right
    nlinarith
  · intro k hk
    have h50 : (7000 + 50 * (k : Int) - 7000) / 50 = (k : Int) := by
      rw [show 7000 + 50 * (k : Int) - 7000 = 50 * k by ring,
          Int.mul_ediv_cancel_left _ (by norm_num)]
    have hnn : ¬ (7000 + 50 * (k : Int) < 7000) := by omega
    have hmin : min 20 ((7000 + 50 * (k : Int) - 7000) / 50).toNat = k := by
      rw [h50, Int.toNat_natCast]
      exact min_eq_right (le_of_lt hk)
    unfold omPlayback
    rw [if_neg hnn, hmin, if_pos hk]
    exact ⟨rfl, rfl⟩
  · unfold omFadeVolume
    norm_num
  · intro t ht
    unfold omPlayback
    rw [if_neg (by omega)]
    have h0m : (0 : Int) ≤ (t - 7000) / 50 :=
      Int.ediv_nonneg (by omega) (by norm_num)
    have hq : (20 : Int) ≤ (t - 7000) / 50 := by
      rw [Int.le_ediv_iff_mul_le (by norm_num)]
      omega
    have hnat : 20 ≤ ((t - 7000) / 50).toNat := by
      rw [Int.le_toNat h0m]
      exact_mod_cast hq
    rw [min_eq_left hnat, if_neg (by omega)]

theorem C8_hum_cue_schedule_witness :
    omScheduled true PhaseKey.p3 false = true ∧
    omFireTime 1 = omFireTime 0 + 12000 ∧
    ((omPlayback 3000).paused = false ∧ (omPlayback 3000).volume = 0.2) ∧
    omFadeVolume 10 = 0.2 * ((10 : Nat) : ℚ) / 20 ∧
    ((omPlayback (7000 + 50 * (19 : Nat))).volume = omFadeVolume 19 ∧
      (omPlayback (7000 + 50 * (19 : Nat))).paused = false) ∧
    omPlayback 9000 = { paused := true, currentTime := 0, volume := 0 } :=
  ⟨C8_hum_cue_schedule.2.1 PhaseKey.p3 (by decide),
   C8_hum_cue_schedule.2.2.2.1 0,
   C8_hum_cue_schedule.2.2.2.2.2.1 3000 (by decide) (by decide),
   by rw [C8_hum_cue_schedule.2.2.2.2.2.2.1 10 (by decide)]; norm_num,
   C8_hum_cue_schedule.2.2.2.2.2.2.2.1 19 (by decide),
   C8_hum_cue_schedule.2.2.2.2.2.2.2.2.2 9000 (by decide)⟩

/-- C9 as stated is contradicted by the code: the OM effect cleanup
(App.tsx lines 265-272) clears the cue-fire timeout and interval and
pauses the hum at position 0, but never clears the `_fadeTimeout` /
`_fadeInterval` attached to the audio element.  Evaluated at the failing
input (hum fires 4000 ms into the phase, the phase is left before the
fade's 11000 ms due time), the fade timeout is still pending after
cleanup and will fire across the phase boundary. -/
theorem C9_cleanup_leaves_fade_timer :
    (omEffectCleanup (playOmForExhale 4000 (omEffectMount omInitial))).startOmCycle
        = none ∧
    (omEffectCleanup (playOmForExhale 4000 (omEffectMount omInitial))).omIntervalActive
        = false ∧
    (omEffectCleanup (playOmForExhale 4000 (omEffectMount omInitial))).audio.paused
        = true ∧
    (omEffectCleanup (playOmForExhale 4000 (omEffectMount omInitial))).audio.currentTime
        = 0 ∧
    (omEffectCleanup (playOmForExhale 4000 (omEffectMount omInitial))).fadeTimeout
        = some 11000 := by
  refine ⟨rfl, rfl, rfl, rfl, by decide⟩

end ZenOut
